import Mathlib

/-!
Shallow embedding of `scripts/parse-pr-urls.js` (the URL-Pair Pipeline):
extraction of `Before:`/`After:` URL pairs from free-form text, single-URL
reachability validation, pair validation, and patching of the backstop
configuration document, together with the exit-code behaviour of `main`.

Strings are modelled as Lean `String` (lists of characters); the JavaScript
string helpers used by the script (`split('\n')`, `trim()`, the two marker
regexes) are embedded as structurally recursive functions below.  Network
reachability and WHATWG URL parsing are platform facilities external to the
script; they are modelled as explicit oracle parameters.
-/

set_option autoImplicit false

/-- Characters matched by the JavaScript regex class `\s` (and trimmed by
`String.prototype.trim`): ASCII whitespace, NBSP, the Unicode space
separators, the line separators and the BOM. -/
def jsSpace (c : Char) : Bool :=
  c == ' ' || c == '\t' || c == '\n' || c == '\r' || c == '\x0b' || c == '\x0c' ||
  c == '\u00a0' || c == '\u1680' || decide (0x2000 ≤ c.toNat ∧ c.toNat ≤ 0x200a) ||
  c == '\u2028' || c == '\u2029' || c == '\u202f' || c == '\u205f' || c == '\u3000' ||
  c == '\ufeff'

/-- Both-ends whitespace trimming on character lists (JavaScript `trim()`). -/
def trimChars (l : List Char) : List Char :=
  ((l.dropWhile jsSpace).reverse.dropWhile jsSpace).reverse

/-- JavaScript `String.prototype.trim`. -/
def jsTrim (s : String) : String :=
  String.mk (trimChars s.toList)

/-- JavaScript `String.prototype.split('\n')` on character lists:
`[]` yields `[[]]`, and every `'\n'` separates two (possibly empty) fields. -/
def splitLines : List Char → List (List Char)
  | [] => [[]]
  | c :: cs =>
    if c = '\n' then [] :: splitLines cs
    else
      match splitLines cs with
      | [] => [[c]]
      | l :: ls => (c :: l) :: ls

/-- JavaScript `prBody.split('\n')`. -/
def jsSplitLines (s : String) : List String :=
  (splitLines s.toList).map String.mk

/-- Characters matched by the leading class `[\*\-•\s]` of the marker regexes. -/
def isBullet (c : Char) : Bool :=
  c == '*' || c == '-' || c == '•' || jsSpace c

/-- Characters matched by `.` in a JavaScript regex without the `s` flag
(everything except the four line terminators). -/
def dotMatches (c : Char) : Bool :=
  !(c == '\n' || c == '\r' || c == '\u2028' || c == '\u2029')

/-- The marker regex `^[\*\-•\s]*[Uu]kw\s*(.+)$` followed by `.trim()` on the
capture, shared shape of the `beforeMatch` and `afterMatch` tests in
`parsePRBody`.  `up`/`lo` are the two admissible initial letters and `kw` the
rest of the keyword including the colon.  The greedy `\s*`/backtracking
behaviour of the capture `(.+)$` is reproduced exactly: when everything after
the keyword is whitespace the capture backtracks to the final whitespace
character.  `matchTail` is the part of the test after the leading bullet
class has been stripped. -/
def matchTail (up lo : Char) (kw : List Char) (c : Char) (rest : List Char) : Option String :=
  if (c == up || c == lo) && rest.take kw.length == kw then
    if (rest.drop kw.length).dropWhile jsSpace ≠ [] then
      if ((rest.drop kw.length).dropWhile jsSpace).all dotMatches then
        some (jsTrim (String.mk ((rest.drop kw.length).dropWhile jsSpace)))
      else none
    else
      match (rest.drop kw.length).getLast? with
      | some c2 => if dotMatches c2 then some (jsTrim (String.mk [c2])) else none
      | none => none
  else none

/-- The marker regex applied to a line: strip the bullet class, then test the
keyword and capture via `matchTail`. -/
def matchKeyword (up lo : Char) (kw : List Char) (line : String) : Option String :=
  match line.toList.dropWhile isBullet with
  | [] => none
  | c :: rest => matchTail up lo kw c rest

/-- `line.match(/^[\*\-•\s]*[Bb]efore:\s*(.+)$/)`, returning the trimmed
capture group. -/
def matchBefore (line : String) : Option String :=
  matchKeyword 'B' 'b' ("efore:".toList) line

/-- `line.match(/^[\*\-•\s]*[Aa]fter:\s*(.+)$/)`, returning the trimmed
capture group. -/
def matchAfter (line : String) : Option String :=
  matchKeyword 'A' 'a' ("fter:".toList) line

/-- A candidate / validated before–after URL pair. -/
structure UrlPair where
  before : String
  after : String
deriving DecidableEq, Repr, Inhabited

/-- The scan state of `parsePRBody`'s line loop: the two pending slots
`currentBefore` / `currentAfter` plus the pairs pushed so far. -/
structure ScanState where
  currentBefore : Option String
  currentAfter : Option String
  pairs : List UrlPair
deriving DecidableEq, Repr

/-- Initial scan state (`currentBefore = null`, `currentAfter = null`). -/
def initScan : ScanState :=
  { currentBefore := none, currentAfter := none, pairs := [] }

/-- One iteration of the `for` loop in `parsePRBody`, on an already trimmed
line.  JavaScript truthiness of the pending slots is modelled by the `≠ ""`
tests (a `null` slot is `none`). -/
def scanLine (st : ScanState) (line : String) : ScanState :=
  match matchBefore line with
  | some v => { st with currentBefore := some v }
  | none =>
    match matchAfter line with
    | none => st
    | some v =>
      match st.currentBefore with
      | some b =>
        if b ≠ "" ∧ v ≠ "" then
          { currentBefore := none, currentAfter := none,
            pairs := st.pairs ++ [{ before := b, after := v }] }
        else { st with currentAfter := some v }
      | none => { st with currentAfter := some v }

/-- The whole line scan of `parsePRBody`: trim every line, then fold the loop
body over the lines. -/
def scanLines (lines : List String) : ScanState :=
  (lines.map jsTrim).foldl scanLine initScan

/-- Scan of a whole PR body: split on `'\n'` then run the line scan. -/
def scanBody (body : String) : ScanState :=
  scanLines (jsSplitLines body)

/-- The candidate pairs extracted by `parsePRBody` (its `potentialPairs`),
including the falsy-body early return. -/
def extractPairs (body : String) : List UrlPair :=
  if body = "" then [] else (scanBody body).pairs

/-- JavaScript truthiness of a nullable string. -/
def truthyS : Option String → Bool
  | none => false
  | some s => s != ""

/-- The `if (currentBefore && !currentAfter)` dangling-before warning test at
the end of `parsePRBody`. -/
def warnBefore (st : ScanState) : Bool :=
  truthyS st.currentBefore && !truthyS st.currentAfter

/-- The `if (currentAfter && !currentBefore)` dangling-after warning test at
the end of `parsePRBody`. -/
def warnAfter (st : ScanState) : Bool :=
  truthyS st.currentAfter && !truthyS st.currentBefore

/-- The diagnostic logged for a dropped pair, recording which side(s)
failed validation. -/
structure PairDiag where
  pair : UrlPair
  beforeValid : Bool
  afterValid : Bool
deriving DecidableEq, Repr

/-- The validation loop of `parsePRBody`: each candidate pair is kept exactly
when both URLs validate (the two checks of one pair run together via
`Promise.all`, modelled by the pure oracle `valid`); a dropped pair produces
a diagnostic naming the failing side(s). -/
def validatePairs (valid : String → Bool) : List UrlPair → List UrlPair × List PairDiag
  | [] => ([], [])
  | p :: ps =>
    let bv := valid p.before
    let av := valid p.after
    let rest := validatePairs valid ps
    if bv && av then (p :: rest.1, rest.2)
    else (rest.1, { pair := p, beforeValid := bv, afterValid := av } :: rest.2)

/-- `parsePRBody`: extraction followed by validation, returning the validated
pairs (`urlPairs`). -/
def parsePRBody (valid : String → Bool) (body : String) : List UrlPair :=
  (validatePairs valid (extractPairs body)).1

/-- The fields of the object produced by `new URL(url)` that `validateUrl`
reads.  WHATWG URL parsing itself is a platform facility, kept abstract. -/
structure UrlObj where
  protocol : String
  hostname : String
  port : String
  pathname : String
  search : String
deriving DecidableEq, Repr

/-- The request options object built by `validateUrl`. -/
structure ReqOptions where
  method : String
  hostname : String
  port : String
  path : String
  timeout : Nat
deriving DecidableEq, Repr

/-- Which of the two node clients (`https` / `http`) issues the request. -/
inductive Client where
  | https
  | http
deriving DecidableEq, Repr

/-- Outcome of a single HEAD request: a response with some status code, a
connection error, or hitting the request timeout. -/
inductive NetResult where
  | response (statusCode : Nat)
  | connError
  | timedOut
deriving DecidableEq, Repr

/-- `const client = urlObj.protocol === 'https:' ? https : http;`. -/
def chooseClient (u : UrlObj) : Client :=
  if u.protocol = "https:" then Client.https else Client.http

/-- The options passed to `client.request` by `validateUrl`. -/
def headOptions (u : UrlObj) : ReqOptions :=
  { method := "HEAD"
    hostname := u.hostname
    port := u.port
    path := u.pathname ++ u.search
    timeout := 10000 }

/-- `validateUrl`: parse the URL (a parse failure is caught and yields
`false`), pick the client from the scheme, issue a HEAD request, and resolve
`true` exactly on status code 200; an error or timeout resolves `false`.
`parseURL` models the platform `new URL` constructor and `net` the network's
behaviour on a request. -/
def validateUrl (parseURL : String → Option UrlObj)
    (net : Client → ReqOptions → NetResult) (url : String) : Bool :=
  match parseURL url with
  | none => false
  | some u =>
    match net (chooseClient u) (headOptions u) with
    | NetResult.response code => code == 200
    | NetResult.connError => false
    | NetResult.timedOut => false

/-- One scenario record of the backstop configuration.  The JavaScript number
literal `0.1` is embedded as the rational `0.1`. -/
structure Scenario where
  label : String
  url : String
  referenceUrl : String
  hideSelectors : List String
  removeSelectors : List String
  misMatchThreshold : Rat
deriving DecidableEq, Repr, Inhabited

/-- The scenario object literal built for pair number `index` (0-based) in
`updateBackstopConfig`. -/
def mkScenario (pair : UrlPair) (index : Nat) : Scenario :=
  { label := "Additional test page (" ++ toString (index + 1) ++ ")"
    url := pair.after
    referenceUrl := pair.before
    hideSelectors := [".cookie-banner", ".loading-spinner", "[data-testid=\"timestamp\"]", ".logo-garden"]
    removeSelectors := [".advertisement", ".chat-widget"]
    misMatchThreshold := 0.1 }

/-- The parsed backstop configuration document: its (possibly absent or null)
`scenarios` array, plus all other top-level fields kept opaquely as
key/serialized-value pairs. -/
structure BackstopConfig where
  scenarios : Option (List Scenario)
  rest : List (String × String)
deriving DecidableEq, Repr

/-- The `urlPairs.forEach((pair, index) => ... scenarios.push(scenario))`
loop of `updateBackstopConfig`. -/
def addScenarios (scen : List Scenario) (index : Nat) : List UrlPair → List Scenario
  | [] => scen
  | p :: ps => addScenarios (scen ++ [mkScenario p index]) (index + 1) ps

/-- The in-memory mutation performed by `updateBackstopConfig` on a parsed
configuration document: initialize a falsy `scenarios` to `[]`, then append
one scenario per pair.  (The surrounding file I/O is modelled in
`mainExitCode`.) -/
def updateBackstopConfig (urlPairs : List UrlPair) (cfg : BackstopConfig) : BackstopConfig :=
  let scen0 := match cfg.scenarios with
    | some s => s
    | none => []
  { cfg with scenarios := some (addScenarios scen0 0 urlPairs) }

/-- State of the configuration document on disk, as seen by
`updateBackstopConfig`'s `existsSync` / `readFileSync` / `JSON.parse` steps. -/
inductive ConfigFile where
  | missing
  | readError
  | parseError
  | content (cfg : BackstopConfig)
deriving DecidableEq, Repr

/-- Exit code of the script's `main` (with its top-level `.catch`):
a falsy PR body or an empty validated-pair list exits 0 early; a missing
configuration document hits `process.exit(1)` inside `updateBackstopConfig`;
a read, parse or write failure throws and is caught by
`main().catch(... process.exit(1))`; otherwise the process finishes with 0. -/
def mainExitCode (valid : String → Bool) (prBody : Option String)
    (file : ConfigFile) (writeOk : Bool) : Nat :=
  match prBody with
  | none => 0
  | some body =>
    if body = "" then 0
    else
      let urlPairs := parsePRBody valid body
      if urlPairs = [] then 0
      else
        match file with
        | ConfigFile.missing => 1
        | ConfigFile.readError => 1
        | ConfigFile.parseError => 1
        | ConfigFile.content _ => if writeOk then 0 else 1

/-! Statement-level vocabulary: generators for well-formed input texts and a
specification-side description of the appended scenarios, used to state the
claims (never used inside the embedded operations above). -/

/-- Head of a character list exists and is not whitespace. -/
def headOk : List Char → Bool
  | [] => false
  | c :: _ => !jsSpace c

/-- A clean marker payload: non-empty, not starting or ending with
whitespace, and free of regex line terminators (hence of newlines). -/
def cleanVal (s : String) : Bool :=
  headOk s.toList && headOk s.toList.reverse && s.toList.all dotMatches

/-- A line that matches neither marker once trimmed. -/
def neutralLine (l : String) : Bool :=
  matchBefore (jsTrim l) == none && matchAfter (jsTrim l) == none

/-- A line containing no newline character. -/
def noNewline (l : String) : Bool :=
  decide ('\n' ∉ l.toList)

/-- A junk line: matches neither marker and contains no newline. -/
def goodJunk (l : String) : Bool :=
  neutralLine l && noNewline l

/-- One well-formed pair occurrence in a text: optional junk lines, a
`Before:` line, optional junk lines, then the matching `After:` line. -/
structure PairBlock where
  junkB : List String
  junkA : List String
  pair : UrlPair

/-- The lines of one `PairBlock`. -/
def blockLines (bl : PairBlock) : List String :=
  bl.junkB ++ ["Before: " ++ bl.pair.before] ++ bl.junkA ++ ["After: " ++ bl.pair.after]

/-- The lines of a sequence of `PairBlock`s. -/
def blocksLines : List PairBlock → List String
  | [] => []
  | bl :: rest => blockLines bl ++ blocksLines rest

/-- Join character-list lines with `'\n'` (left inverse of `splitLines` on
newline-free lines). -/
def joinChars : List (List Char) → List Char
  | [] => []
  | [l] => l
  | l :: l2 :: ls => l ++ '\n' :: joinChars (l2 :: ls)

/-- Reassemble a text from its lines. -/
def linesToBody (ls : List String) : String :=
  String.mk (joinChars (ls.map String.toList))

/-- Specification-side description of the scenarios appended for a pair list,
with 0-based running index `index`. -/
def buildScenarios (index : Nat) : List UrlPair → List Scenario
  | [] => []
  | p :: ps => mkScenario p index :: buildScenarios (index + 1) ps

/-! Concrete sample values used by the witnesses. -/

/-- Sample pair for witnesses. -/
def pairEx : UrlPair :=
  { before := "https://a.example/x", after := "https://b.example/y" }

/-- Second sample pair for witnesses. -/
def pairEx2 : UrlPair :=
  { before := "https://c.example/p", after := "https://d.example/q" }

/-- Sample pre-existing scenario for witnesses. -/
def scenEx : Scenario :=
  { label := "Homepage"
    url := "https://stage.example/"
    referenceUrl := "https://main.example/"
    hideSelectors := []
    removeSelectors := []
    misMatchThreshold := 0.1 }

/-- Sample configuration document with one existing scenario. -/
def cfgEx : BackstopConfig :=
  { scenarios := some [scenEx], rest := [("id", "backstop_default")] }

/-- Sample configuration document whose `scenarios` field is absent. -/
def cfgNoScenarios : BackstopConfig :=
  { scenarios := none, rest := [("id", "backstop_default")] }

/-- Sample pair block for witnesses. -/
def blockEx : PairBlock :=
  { junkB := ["Screenshots:"], junkA := ["(loading may be slow)"], pair := pairEx }

/-- Sample URL object for witnesses. -/
def urlObjEx : UrlObj :=
  { protocol := "https:", hostname := "ok.example", port := "", pathname := "/", search := "" }

/-! Helper lemmas about the embedded string primitives. -/

lemma toList_append (s t : String) : (s ++ t).toList = s.toList ++ t.toList := by
  cases s
  cases t
  rfl

lemma mk_toList (s : String) : String.mk s.toList = s := by
  cases s
  rfl

lemma toList_inj {s t : String} (h : s.toList = t.toList) : s = t := by
  cases s
  cases t
  exact congrArg String.mk h

lemma eq_empty_iff (s : String) : s = "" ↔ s.toList = [] := by
  cases s with
  | mk m =>
    constructor
    · intro h
      rw [h]
      rfl
    · intro h
      exact toList_inj h

lemma headOk_ne_nil {l : List Char} (h : headOk l = true) : l ≠ [] := by
  cases l with
  | nil => simp [headOk] at h
  | cons c t => simp

lemma dropWhile_of_headOk {l : List Char} (h : headOk l = true) : l.dropWhile jsSpace = l := by
  cases l with
  | nil => rfl
  | cons c t =>
    simp only [headOk, Bool.not_eq_true'] at h
    simp [List.dropWhile, h]

lemma headOk_append {l : List Char} (m : List Char) (h : l ≠ []) :
    headOk (l ++ m) = headOk l := by
  cases l with
  | nil => exact absurd rfl h
  | cons c t => rfl

lemma dropWhile_sp_append {sp r : List Char} (hsp : ∀ c ∈ sp, jsSpace c = true)
    (hr : headOk r = true) : (sp ++ r).dropWhile jsSpace = r := by
  induction sp with
  | nil => simpa using dropWhile_of_headOk hr
  | cons c t ih =>
    have hc := hsp c (by simp)
    simp only [List.cons_append, List.dropWhile, hc]
    exact ih (fun x hx => hsp x (by simp [hx]))

lemma trim_stable {l : List Char} (h1 : headOk l = true) (h2 : headOk l.reverse = true) :
    trimChars l = l := by
  unfold trimChars
  rw [dropWhile_of_headOk h1, dropWhile_of_headOk h2, List.reverse_reverse]

lemma jsTrim_stable {s : String} (h1 : headOk s.toList = true)
    (h2 : headOk s.toList.reverse = true) : jsTrim s = s := by
  unfold jsTrim
  rw [trim_stable h1 h2, mk_toList]

lemma cleanVal_iff {s : String} : cleanVal s = true ↔
    headOk s.toList = true ∧ headOk s.toList.reverse = true ∧ s.toList.all dotMatches = true := by
  simp [cleanVal, Bool.and_eq_true, and_assoc]

lemma clean_ne_empty {b : String} (hb : cleanVal b = true) : b ≠ "" := by
  intro h
  have := headOk_ne_nil (cleanVal_iff.mp hb).1
  exact this ((eq_empty_iff b).mp h)

lemma no_nl_of_clean {b : String} (hb : cleanVal b = true) : '\n' ∉ b.toList := by
  intro hm
  have h := List.all_eq_true.mp (cleanVal_iff.mp hb).2.2 _ hm
  exact absurd h (by decide)

/-! Lemmas about the marker regex. -/

lemma dropWhile_bullets {bs : List Char} (hbs : ∀ x ∈ bs, isBullet x = true) {c : Char}
    (hc : isBullet c = false) (l : List Char) :
    (bs ++ c :: l).dropWhile isBullet = c :: l := by
  induction bs with
  | nil => simp [List.dropWhile, hc]
  | cons b t ih =>
    have hb := hbs b (by simp)
    simp only [List.cons_append, List.dropWhile, hb]
    exact ih (fun x hx => hbs x (by simp [hx]))

lemma matchKeyword_cons (up lo : Char) (kw : List Char) (line : String) (c : Char)
    (rest : List Char) (h : line.toList.dropWhile isBullet = c :: rest) :
    matchKeyword up lo kw line = matchTail up lo kw c rest := by
  unfold matchKeyword
  rw [h]

lemma matchKeyword_pos (up lo c : Char) (kw bs sp r : List Char)
    (hbs : ∀ x ∈ bs, isBullet x = true)
    (hcb : isBullet c = false)
    (hc : (c == up || c == lo) = true)
    (hsp : ∀ x ∈ sp, jsSpace x = true)
    (hr1 : headOk r = true) (hr2 : headOk r.reverse = true)
    (hr3 : r.all dotMatches = true) :
    matchKeyword up lo kw (String.mk (bs ++ c :: (kw ++ (sp ++ r)))) = some (String.mk r) := by
  have hd : (String.mk (bs ++ c :: (kw ++ (sp ++ r)))).toList.dropWhile isBullet
      = c :: (kw ++ (sp ++ r)) := dropWhile_bullets hbs hcb _
  have hcond : ((c == up || c == lo) && ((kw ++ (sp ++ r)).take kw.length == kw)) = true := by
    rw [List.take_left, hc, beq_self_eq_true]
    rfl
  rw [matchKeyword_cons _ _ _ _ _ _ hd]
  unfold matchTail
  rw [if_pos hcond]
  rw [List.drop_left, dropWhile_sp_append hsp hr1]
  rw [if_pos (headOk_ne_nil hr1), if_pos hr3]
  rw [show jsTrim (String.mk r) = String.mk r from jsTrim_stable hr1 hr2]

lemma matchKeyword_neg_head (up lo c : Char) (kw l : List Char)
    (hcb : isBullet c = false) (hc : (c == up || c == lo) = false) :
    matchKeyword up lo kw (String.mk (c :: l)) = none := by
  have hd : (String.mk (c :: l)).toList.dropWhile isBullet = c :: l := by
    rw [show (String.mk (c :: l)).toList = c :: l from rfl]
    simp [List.dropWhile, hcb]
  rw [matchKeyword_cons _ _ _ _ _ _ hd]
  unfold matchTail
  rw [if_neg]
  rw [hc]
  simp

/-! The two marker lines built from a clean payload: how `jsTrim`,
`matchBefore` and `matchAfter` behave on them. -/

lemma beforeLine_toList (b : String) :
    ("Before: " ++ b).toList = 'B' :: (("efore:".toList) ++ ([' '] ++ b.toList)) := by
  rw [toList_append]
  rfl

lemma afterLine_toList (a : String) :
    ("After: " ++ a).toList = 'A' :: (("fter:".toList) ++ ([' '] ++ a.toList)) := by
  rw [toList_append]
  rfl

lemma beforeLine_mk (b : String) :
    "Before: " ++ b = String.mk ([] ++ 'B' :: (("efore:".toList) ++ ([' '] ++ b.toList))) := by
  apply toList_inj
  rw [beforeLine_toList]
  rfl

lemma afterLine_mk (a : String) :
    "After: " ++ a = String.mk ([] ++ 'A' :: (("fter:".toList) ++ ([' '] ++ a.toList))) := by
  apply toList_inj
  rw [afterLine_toList]
  rfl

lemma matchBefore_marker {b : String} (hb : cleanVal b = true) :
    matchBefore ("Before: " ++ b) = some b := by
  obtain ⟨h1, h2, h3⟩ := cleanVal_iff.mp hb
  rw [beforeLine_mk]
  unfold matchBefore
  rw [matchKeyword_pos 'B' 'b' 'B' ("efore:".toList) [] [' '] b.toList
    (by simp) (by decide) (by decide) (by intro x hx; simp at hx; subst hx; decide) h1 h2 h3]
  rw [mk_toList]

lemma matchAfter_marker {a : String} (ha : cleanVal a = true) :
    matchAfter ("After: " ++ a) = some a := by
  obtain ⟨h1, h2, h3⟩ := cleanVal_iff.mp ha
  rw [afterLine_mk]
  unfold matchAfter
  rw [matchKeyword_pos 'A' 'a' 'A' ("fter:".toList) [] [' '] a.toList
    (by simp) (by decide) (by decide) (by intro x hx; simp at hx; subst hx; decide) h1 h2 h3]
  rw [mk_toList]

lemma matchAfter_beforeLine (b : String) : matchAfter ("Before: " ++ b) = none := by
  have h : "Before: " ++ b = String.mk ('B' :: (("efore:".toList) ++ ([' '] ++ b.toList))) := by
    apply toList_inj
    rw [beforeLine_toList]
    rfl
  rw [h]
  unfold matchAfter
  exact matchKeyword_neg_head 'A' 'a' 'B' _ _ (by decide) (by decide)

lemma matchBefore_afterLine (a : String) : matchBefore ("After: " ++ a) = none := by
  have h : "After: " ++ a = String.mk ('A' :: (("fter:".toList) ++ ([' '] ++ a.toList))) := by
    apply toList_inj
    rw [afterLine_toList]
    rfl
  rw [h]
  unfold matchBefore
  exact matchKeyword_neg_head 'B' 'b' 'A' _ _ (by decide) (by decide)

lemma jsTrim_beforeLine {b : String} (hb : cleanVal b = true) :
    jsTrim ("Before: " ++ b) = "Before: " ++ b := by
  obtain ⟨h1, h2, _⟩ := cleanVal_iff.mp hb
  apply jsTrim_stable
  · rw [beforeLine_toList]
    rfl
  · rw [toList_append, List.reverse_append,
      headOk_append _ (by simpa using List.reverse_ne_nil_iff.mpr (headOk_ne_nil h1))]
    exact h2

lemma jsTrim_afterLine {a : String} (ha : cleanVal a = true) :
    jsTrim ("After: " ++ a) = "After: " ++ a := by
  obtain ⟨h1, h2, _⟩ := cleanVal_iff.mp ha
  apply jsTrim_stable
  · rw [afterLine_toList]
    rfl
  · rw [toList_append, List.reverse_append,
      headOk_append _ (by simpa using List.reverse_ne_nil_iff.mpr (headOk_ne_nil h1))]
    exact h2

/-! Lemmas about single scan steps and folds over line groups. -/

lemma scanLine_neutral (st : ScanState) {l : String} (h : neutralLine l = true) :
    scanLine st (jsTrim l) = st := by
  have hba : matchBefore (jsTrim l) = none ∧ matchAfter (jsTrim l) = none := by
    constructor
    · have := (Bool.and_eq_true _ _).mp h |>.1
      simpa using this
    · have := (Bool.and_eq_true _ _).mp h |>.2
      simpa using this
  unfold scanLine
  rw [hba.1, hba.2]

lemma foldl_junk {js : List String} (h : ∀ l ∈ js, neutralLine l = true) (st : ScanState) :
    (js.map jsTrim).foldl scanLine st = st := by
  induction js generalizing st with
  | nil => rfl
  | cons l t ih =>
    simp only [List.map_cons, List.foldl_cons]
    rw [scanLine_neutral st (h l (by simp))]
    exact ih (fun x hx => h x (by simp [hx])) st

lemma scanLine_markerB (st : ScanState) {b : String} (hb : cleanVal b = true) :
    scanLine st (jsTrim ("Before: " ++ b)) = { st with currentBefore := some b } := by
  rw [jsTrim_beforeLine hb]
  unfold scanLine
  rw [matchBefore_marker hb]

lemma scanLine_markerA_emit (st : ScanState) {a b : String} (ha : cleanVal a = true)
    (hbe : st.currentBefore = some b) (hb : b ≠ "") :
    scanLine st (jsTrim ("After: " ++ a)) =
      { currentBefore := none, currentAfter := none,
        pairs := st.pairs ++ [{ before := b, after := a }] } := by
  rw [jsTrim_afterLine ha]
  unfold scanLine
  rw [matchBefore_afterLine a, matchAfter_marker ha, hbe]
  simp only [if_pos (And.intro hb (clean_ne_empty ha))]

lemma scanLine_markerA_noemit (st : ScanState) {a : String} (ha : cleanVal a = true)
    (hbe : truthyS st.currentBefore = false) :
    scanLine st (jsTrim ("After: " ++ a)) = { st with currentAfter := some a } := by
  rw [jsTrim_afterLine ha]
  unfold scanLine
  rw [matchBefore_afterLine a, matchAfter_marker ha]
  cases hcb : st.currentBefore with
  | none => rfl
  | some b =>
    rw [hcb] at hbe
    have hb : b = "" := by
      simpa [truthyS] using hbe
    subst hb
    simp

lemma scan_blockLines (bl : PairBlock) (st : ScanState)
    (hp : cleanVal bl.pair.before = true ∧ cleanVal bl.pair.after = true)
    (hj : (∀ l ∈ bl.junkB, neutralLine l = true) ∧ (∀ l ∈ bl.junkA, neutralLine l = true)) :
    ((blockLines bl).map jsTrim).foldl scanLine st =
      { currentBefore := none, currentAfter := none, pairs := st.pairs ++ [bl.pair] } := by
  unfold blockLines
  simp only [List.map_append, List.foldl_append, List.map_cons, List.map_nil,
    List.foldl_cons, List.foldl_nil]
  rw [foldl_junk hj.1 st]
  rw [scanLine_markerB st hp.1]
  rw [foldl_junk hj.2 _]
  rw [scanLine_markerA_emit _ hp.2 rfl (clean_ne_empty hp.1)]

lemma scan_blocksLines (blocks : List PairBlock)
    (hp : ∀ bl ∈ blocks, cleanVal bl.pair.before = true ∧ cleanVal bl.pair.after = true)
    (hj : ∀ bl ∈ blocks,
      (∀ l ∈ bl.junkB, neutralLine l = true) ∧ (∀ l ∈ bl.junkA, neutralLine l = true)) :
    ∀ st : ScanState,
      (((blocksLines blocks).map jsTrim).foldl scanLine st).pairs =
        st.pairs ++ blocks.map PairBlock.pair := by
  induction blocks with
  | nil =>
    intro st
    simp [blocksLines]
  | cons bl t ih =>
    intro st
    unfold blocksLines
    simp only [List.map_append, List.foldl_append]
    rw [scan_blockLines bl st (hp bl (by simp)) (hj bl (by simp))]
    rw [ih (fun x hx => hp x (by simp [hx])) (fun x hx => hj x (by simp [hx])) _]
    simp [List.map_cons]

/-! Round trip between `joinChars` and `splitLines` on newline-free lines. -/

lemma splitLines_no_nl {l : List Char} (h : '\n' ∉ l) : splitLines l = [l] := by
  induction l with
  | nil => rfl
  | cons c t ih =>
    have hc : ¬(c = '\n') := by
      intro hc
      exact h (by simp [hc])
    have ht : '\n' ∉ t := fun hm => h (by simp [hm])
    unfold splitLines
    rw [if_neg hc, ih ht]

lemma splitLines_append_nl {l : List Char} (r : List Char) (h : '\n' ∉ l) :
    splitLines (l ++ '\n' :: r) = l :: splitLines r := by
  induction l with
  | nil =>
    simp [splitLines]
  | cons c t ih =>
    have hc : ¬(c = '\n') := by
      intro hc
      exact h (by simp [hc])
    have ht : '\n' ∉ t := fun hm => h (by simp [hm])
    rw [List.cons_append]
    conv_lhs => rw [splitLines]
    rw [if_neg hc, ih ht]

lemma splitLines_joinChars : ∀ ls : List (List Char), ls ≠ [] → (∀ l ∈ ls, '\n' ∉ l) →
    splitLines (joinChars ls) = ls
  | [], h, _ => absurd rfl h
  | [l], _, hnl => by
    unfold joinChars
    exact splitLines_no_nl (hnl l (by simp))
  | l :: l2 :: ls, _, hnl => by
    unfold joinChars
    rw [splitLines_append_nl _ (hnl l (by simp))]
    rw [splitLines_joinChars (l2 :: ls) (by simp) (fun x hx => hnl x (by simp [hx]))]

lemma jsSplitLines_linesToBody (ls : List String) (h : ls ≠ [])
    (hnl : ∀ l ∈ ls, '\n' ∉ l.toList) :
    jsSplitLines (linesToBody ls) = ls := by
  unfold jsSplitLines linesToBody
  rw [show (String.mk (joinChars (ls.map String.toList))).toList
        = joinChars (ls.map String.toList) from rfl]
  rw [splitLines_joinChars (ls.map String.toList) (by simpa using h)
    (by
      intro x hx
      obtain ⟨l, hl, rfl⟩ := List.mem_map.mp hx
      exact hnl l hl)]
  rw [List.map_map]
  have : ∀ x ∈ ls, (String.mk ∘ String.toList) x = id x := by
    intro x hx
    simp [Function.comp, mk_toList]
  rw [List.map_congr_left this, List.map_id]

lemma joinChars_two_ne_nil (x y : List Char) (r : List (List Char)) :
    joinChars (x :: y :: r) ≠ [] := by
  unfold joinChars
  simp

lemma linesToBody_ne_empty {ls : List String} (h : 2 ≤ ls.length) : linesToBody ls ≠ "" := by
  match ls with
  | [] => exact absurd h (by decide)
  | [x] => exact absurd h (by simp)
  | x :: y :: r =>
    unfold linesToBody
    intro hemp
    have h0 : joinChars ((x :: y :: r).map String.toList) = [] := by
      have := congrArg String.toList hemp
      simpa using this
    exact joinChars_two_ne_nil _ _ _ (by simpa using h0)

/-! Assembly lemmas for the extraction theorem. -/

lemma goodJunk_neutral {l : String} (h : goodJunk l = true) : neutralLine l = true :=
  ((Bool.and_eq_true _ _).mp h).1

lemma goodJunk_no_nl {l : String} (h : goodJunk l = true) : '\n' ∉ l.toList := by
  have h2 := ((Bool.and_eq_true _ _).mp h).2
  simpa [noNewline] using h2

lemma beforeLine_no_nl {b : String} (hb : cleanVal b = true) :
    '\n' ∉ ("Before: " ++ b).toList := by
  rw [toList_append]
  intro hm
  rcases List.mem_append.mp hm with h | h
  · exact absurd h (by decide)
  · exact no_nl_of_clean hb h

lemma afterLine_no_nl {a : String} (ha : cleanVal a = true) :
    '\n' ∉ ("After: " ++ a).toList := by
  rw [toList_append]
  intro hm
  rcases List.mem_append.mp hm with h | h
  · exact absurd h (by decide)
  · exact no_nl_of_clean ha h

lemma mem_blocksLines {l : String} : ∀ {blocks : List PairBlock}, l ∈ blocksLines blocks →
    ∃ bl ∈ blocks, l ∈ blockLines bl := by
  intro blocks
  induction blocks with
  | nil =>
    intro h
    simp [blocksLines] at h
  | cons bl t ih =>
    intro h
    unfold blocksLines at h
    rcases List.mem_append.mp h with h | h
    · exact ⟨bl, by simp, h⟩
    · obtain ⟨x, hx, hl⟩ := ih h
      exact ⟨x, by simp [hx], hl⟩

lemma blockLines_cases {l : String} {bl : PairBlock} (h : l ∈ blockLines bl) :
    l ∈ bl.junkB ∨ l = "Before: " ++ bl.pair.before ∨ l ∈ bl.junkA ∨
      l = "After: " ++ bl.pair.after := by
  simp only [blockLines, List.mem_append, List.mem_singleton] at h
  tauto

lemma blocks_lines_no_nl {blocks : List PairBlock} {tailJunk : List String}
    (hp : ∀ bl ∈ blocks, cleanVal bl.pair.before = true ∧ cleanVal bl.pair.after = true)
    (hj : ∀ bl ∈ blocks,
      (∀ l ∈ bl.junkB, goodJunk l = true) ∧ (∀ l ∈ bl.junkA, goodJunk l = true))
    (ht : ∀ l ∈ tailJunk, goodJunk l = true) :
    ∀ l ∈ blocksLines blocks ++ tailJunk, '\n' ∉ l.toList := by
  intro l hl
  rcases List.mem_append.mp hl with h | h
  · obtain ⟨bl, hbl, hlb⟩ := mem_blocksLines h
    rcases blockLines_cases hlb with h1 | h1 | h1 | h1
    · exact goodJunk_no_nl ((hj bl hbl).1 l h1)
    · subst h1
      exact beforeLine_no_nl (hp bl hbl).1
    · exact goodJunk_no_nl ((hj bl hbl).2 l h1)
    · subst h1
      exact afterLine_no_nl (hp bl hbl).2
  · exact goodJunk_no_nl (ht l h)

lemma blocksLines_cons_len (bl : PairBlock) (t : List PairBlock) :
    2 ≤ (blocksLines (bl :: t)).length := by
  unfold blocksLines blockLines
  simp [List.length_append]
  omega

/-- C1: for every input text containing N well-formed `Before:`/`After:` line
pairs in strict alternating order (possibly interleaved with non-marker junk
lines), the extraction returns exactly those N candidate pairs, in appearance
order, each holding the trimmed remainders of its `Before` and `After`
lines. -/
theorem c1_extraction_yields_all_pairs (blocks : List PairBlock) (tailJunk : List String)
    (hp : ∀ bl ∈ blocks, cleanVal bl.pair.before = true ∧ cleanVal bl.pair.after = true)
    (hj : ∀ bl ∈ blocks,
      (∀ l ∈ bl.junkB, goodJunk l = true) ∧ (∀ l ∈ bl.junkA, goodJunk l = true))
    (ht : ∀ l ∈ tailJunk, goodJunk l = true) :
    extractPairs (linesToBody (blocksLines blocks ++ tailJunk)) =
      blocks.map PairBlock.pair := by
  have hnl := blocks_lines_no_nl hp hj ht
  cases blocks with
  | nil =>
    simp only [blocksLines, List.nil_append, List.map_nil]
    by_cases hE : linesToBody tailJunk = ""
    · unfold extractPairs
      rw [if_pos hE]
    · unfold extractPairs
      rw [if_neg hE]
      have hT : tailJunk ≠ [] := by
        rintro rfl
        exact hE (by decide)
      unfold scanBody scanLines
      rw [jsSplitLines_linesToBody tailJunk hT
        (fun l hl => hnl l (List.mem_append.mpr (Or.inr hl)))]
      rw [foldl_junk (fun l hl => goodJunk_neutral (ht l hl)) initScan]
      rfl
  | cons bl t =>
    have hlen : 2 ≤ (blocksLines (bl :: t) ++ tailJunk).length := by
      rw [List.length_append]
      have h2 := blocksLines_cons_len bl t
      omega
    have hne := linesToBody_ne_empty hlen
    unfold extractPairs
    rw [if_neg hne]
    unfold scanBody scanLines
    rw [jsSplitLines_linesToBody _ (by
      intro h0
      rw [h0] at hlen
      exact absurd hlen (by decide)) hnl]
    rw [List.map_append, List.foldl_append]
    rw [foldl_junk (fun l hl => goodJunk_neutral (ht l hl)) _]
    rw [scan_blocksLines (bl :: t) hp
      (fun x hx => ⟨fun l hl => goodJunk_neutral ((hj x hx).1 l hl),
        fun l hl => goodJunk_neutral ((hj x hx).2 l hl)⟩) initScan]
    simp [initScan]

/-- Witness for C1 at a concrete two-junk-line, one-pair text. -/
theorem c1_extraction_yields_all_pairs_witness :
    (∀ bl ∈ [blockEx], cleanVal bl.pair.before = true ∧ cleanVal bl.pair.after = true)
    ∧ (∀ bl ∈ [blockEx],
        (∀ l ∈ bl.junkB, goodJunk l = true) ∧ (∀ l ∈ bl.junkA, goodJunk l = true))
    ∧ (∀ l ∈ ["Thanks!"], goodJunk l = true)
    ∧ extractPairs (linesToBody (blocksLines [blockEx] ++ ["Thanks!"])) =
        [blockEx].map PairBlock.pair :=
  ⟨by decide, by decide, by decide,
    c1_extraction_yields_all_pairs [blockEx] (["Thanks!"]) (by decide) (by decide) (by decide)⟩

/-! Validation-stage lemmas and claims C3, C4. -/

lemma validatePairs_fst (valid : String → Bool) : ∀ ps : List UrlPair,
    (validatePairs valid ps).1 = ps.filter (fun p => valid p.before && valid p.after)
  | [] => rfl
  | p :: t => by
    unfold validatePairs
    by_cases h : (valid p.before && valid p.after) = true
    · simp [h, List.filter_cons, validatePairs_fst valid t]
    · rw [Bool.not_eq_true] at h
      simp [h, List.filter_cons, validatePairs_fst valid t]

lemma validatePairs_snd (valid : String → Bool) : ∀ ps : List UrlPair,
    (validatePairs valid ps).2 =
      (ps.filter (fun p => !(valid p.before && valid p.after))).map
        (fun p => { pair := p, beforeValid := valid p.before, afterValid := valid p.after })
  | [] => rfl
  | p :: t => by
    unfold validatePairs
    rcases hb : valid p.before <;> rcases ha : valid p.after <;>
      simp [hb, ha, List.filter_cons, validatePairs_snd valid t]

/-- C4: the pair-validation step keeps a pair exactly when both sides
validate, preserves the relative input order (the kept list is the filter,
hence a sublist, of the input), and produces one diagnostic per dropped pair
recording which side(s) failed. -/
theorem c4_validation_keeps_iff_both (valid : String → Bool) (ps : List UrlPair) :
    (validatePairs valid ps).1 = ps.filter (fun p => valid p.before && valid p.after)
    ∧ List.Sublist ((validatePairs valid ps).1) ps
    ∧ (validatePairs valid ps).2 =
        (ps.filter (fun p => !(valid p.before && valid p.after))).map
          (fun p => { pair := p, beforeValid := valid p.before, afterValid := valid p.after }) :=
  ⟨validatePairs_fst valid ps,
    by
      rw [validatePairs_fst valid ps]
      exact List.filter_sublist ps,
    validatePairs_snd valid ps⟩

/-- C3: `validateUrl` is a total boolean function; it returns `true` exactly
when the URL parses and the HEAD request (with `timeout = 10000` on the
client chosen by the scheme) yields status code exactly 200; a parse failure,
a non-200 status, a connection error or a timeout each return `false`. -/
theorem c3_validateUrl_spec (parseURL : String → Option UrlObj)
    (net : Client → ReqOptions → NetResult) (url : String) :
    (validateUrl parseURL net url = true ↔
      ∃ u, parseURL url = some u ∧
        net (chooseClient u) (headOptions u) = NetResult.response 200)
    ∧ (parseURL url = none → validateUrl parseURL net url = false)
    ∧ (∀ u code, parseURL url = some u →
        net (chooseClient u) (headOptions u) = NetResult.response code → code ≠ 200 →
        validateUrl parseURL net url = false)
    ∧ (∀ u, parseURL url = some u →
        net (chooseClient u) (headOptions u) = NetResult.connError →
        validateUrl parseURL net url = false)
    ∧ (∀ u, parseURL url = some u →
        net (chooseClient u) (headOptions u) = NetResult.timedOut →
        validateUrl parseURL net url = false)
    ∧ (∀ u : UrlObj, (chooseClient u = Client.https ↔ u.protocol = "https:")
        ∧ (headOptions u).timeout = 10000 ∧ (headOptions u).method = "HEAD") := by
  refine ⟨⟨?_, ?_⟩, ?_, ?_, ?_, ?_, ?_⟩
  · intro h
    unfold validateUrl at h
    cases hp : parseURL url with
    | none =>
      rw [hp] at h
      simp at h
    | some u =>
      rw [hp] at h
      simp at h
      cases hn : net (chooseClient u) (headOptions u) with
      | response code =>
        rw [hn] at h
        simp at h
        exact ⟨u, rfl, by rw [hn, h]⟩
      | connError =>
        rw [hn] at h
        simp at h
      | timedOut =>
        rw [hn] at h
        simp at h
  · rintro ⟨u, hu, hn⟩
    unfold validateUrl
    simp [hu, hn]
  · intro h
    unfold validateUrl
    simp [h]
  · intro u code hu hn hne
    unfold validateUrl
    simp [hu, hn, hne]
  · intro u hu hn
    unfold validateUrl
    simp [hu, hn]
  · intro u hu hn
    unfold validateUrl
    simp [hu, hn]
  · intro u
    refine ⟨?_, rfl, rfl⟩
    unfold chooseClient
    by_cases h : u.protocol = "https:"
    · simp [h]
    · simp [h]

/-- Witness for C3 at a concrete parser and an all-200 network. -/
theorem c3_validateUrl_spec_witness :
    validateUrl (fun s => if s = "https://ok.example/" then some urlObjEx else none)
      (fun _ _ => NetResult.response 200) ("https://ok.example/") = true :=
  (c3_validateUrl_spec (fun s => if s = "https://ok.example/" then some urlObjEx else none)
      (fun _ _ => NetResult.response 200) ("https://ok.example/")).1.mpr
    ⟨urlObjEx, by rw [if_pos rfl], rfl⟩

/-! Lemmas about the configuration patcher. -/

lemma addScenarios_eq : ∀ (ps : List UrlPair) (scen : List Scenario) (k : Nat),
    addScenarios scen k ps = scen ++ buildScenarios k ps
  | [], scen, k => by simp [addScenarios, buildScenarios]
  | p :: t, scen, k => by
    unfold addScenarios buildScenarios
    rw [addScenarios_eq t (scen ++ [mkScenario p k]) (k + 1)]
    simp

lemma buildScenarios_length : ∀ (k : Nat) (ps : List UrlPair),
    (buildScenarios k ps).length = ps.length
  | _, [] => rfl
  | k, p :: t => by simp [buildScenarios, buildScenarios_length (k + 1) t]

lemma buildScenarios_getElem : ∀ (k : Nat) (ps : List UrlPair) (i : Nat),
    (buildScenarios k ps)[i]? = ps[i]?.map (fun p => mkScenario p (k + i))
  | k, [], i => by simp [buildScenarios]
  | k, p :: t, 0 => by simp [buildScenarios]
  | k, p :: t, i + 1 => by
    simp only [buildScenarios, List.getElem?_cons_succ]
    rw [buildScenarios_getElem (k + 1) t i]
    have harith : k + 1 + i = k + (i + 1) := by omega
    rw [harith]

lemma buildScenarios_mem_fields {s : Scenario} : ∀ (k : Nat) (ps : List UrlPair),
    s ∈ buildScenarios k ps →
    s.hideSelectors =
        [".cookie-banner", ".loading-spinner", "[data-testid=\"timestamp\"]", ".logo-garden"]
    ∧ s.removeSelectors = [".advertisement", ".chat-widget"]
    ∧ s.misMatchThreshold = 0.1
  | k, [], h => by simp [buildScenarios] at h
  | k, p :: t, h => by
    unfold buildScenarios at h
    rcases List.mem_cons.mp h with h1 | h1
    · subst h1
      exact ⟨rfl, rfl, rfl⟩
    · exact buildScenarios_mem_fields (k + 1) t h1

lemma updateBackstopConfig_eq (ps : List UrlPair) (cfg : BackstopConfig) :
    updateBackstopConfig ps cfg =
      { cfg with scenarios := some (cfg.scenarios.getD [] ++ buildScenarios 0 ps) } := by
  unfold updateBackstopConfig
  cases h : cfg.scenarios with
  | none => simp [h, addScenarios_eq, Option.getD]
  | some scen => simp [h, addScenarios_eq, Option.getD]

/-- C2: applying K validated pairs to a configuration document whose scenario
collection has size M yields a collection of size M + K; the M existing
records are unchanged in place, and the i-th appended record (0-based `i`)
is the scenario labelled `Additional test page (i+1)` whose `url` is the
pair's after value and whose `referenceUrl` is the pair's before value. -/
theorem c2_apply_appends_in_order (ps : List UrlPair) (cfg : BackstopConfig)
    (scen : List Scenario) (h : cfg.scenarios = some scen) :
    ∃ upd, (updateBackstopConfig ps cfg).scenarios = some upd
      ∧ upd.length = scen.length + ps.length
      ∧ (∀ i, i < scen.length → upd[i]? = scen[i]?)
      ∧ (∀ i p, ps[i]? = some p →
          upd[scen.length + i]? = some (mkScenario p i)
          ∧ (mkScenario p i).label = "Additional test page (" ++ toString (i + 1) ++ ")"
          ∧ (mkScenario p i).url = p.after
          ∧ (mkScenario p i).referenceUrl = p.before) := by
  refine ⟨scen ++ buildScenarios 0 ps, ?_, ?_, ?_, ?_⟩
  · rw [updateBackstopConfig_eq, h]
    rfl
  · rw [List.length_append, buildScenarios_length]
  · intro i hi
    rw [List.getElem?_append, if_pos hi]
  · intro i p hp
    refine ⟨?_, rfl, rfl, rfl⟩
    rw [List.getElem?_append_right (by omega)]
    have harith : scen.length + i - scen.length = i := by omega
    rw [harith, buildScenarios_getElem, hp]
    simp

/-- Witness for C2 at a one-scenario document and two concrete pairs. -/
theorem c2_apply_appends_in_order_witness :
    cfgEx.scenarios = some [scenEx]
    ∧ ∃ upd, (updateBackstopConfig [pairEx, pairEx2] cfgEx).scenarios = some upd
        ∧ upd.length = [scenEx].length + [pairEx, pairEx2].length
        ∧ (∀ i, i < [scenEx].length → upd[i]? = [scenEx][i]?)
        ∧ (∀ i p, [pairEx, pairEx2][i]? = some p →
            upd[[scenEx].length + i]? = some (mkScenario p i)
            ∧ (mkScenario p i).label = "Additional test page (" ++ toString (i + 1) ++ ")"
            ∧ (mkScenario p i).url = p.after
            ∧ (mkScenario p i).referenceUrl = p.before) :=
  ⟨rfl, c2_apply_appends_in_order [pairEx, pairEx2] cfgEx [scenEx] rfl⟩

/-- C9 counterexample: the apply operation's return value is not the count of
appended scenarios — two one-pair inputs (same count) produce different
return values on the same document. -/
theorem c9_counterexample_not_count :
    updateBackstopConfig [pairEx] cfgNoScenarios ≠
      updateBackstopConfig [pairEx2] cfgNoScenarios := by
  decide

/-- C9 amended: the apply operation returns the updated configuration
document itself; the number of scenarios it appends (the count reported in
its completion log) equals the number of pairs in the sequence. -/
theorem c9_amended_returns_document (ps : List UrlPair) (cfg : BackstopConfig) :
    updateBackstopConfig ps cfg =
      { cfg with scenarios := some (cfg.scenarios.getD [] ++ buildScenarios 0 ps) }
    ∧ ((updateBackstopConfig ps cfg).scenarios.getD []).length =
        (cfg.scenarios.getD []).length + ps.length :=
  ⟨updateBackstopConfig_eq ps cfg, by
    rw [updateBackstopConfig_eq]
    simp [buildScenarios_length]⟩

/-- C7 counterexample: applying zero pairs to a document with no scenario
collection is not content-preserving — it creates an empty collection. -/
theorem c7_counterexample_creates_collection :
    updateBackstopConfig [] cfgNoScenarios ≠ cfgNoScenarios := by
  decide

/-- C7 amended: the apply operation never touches the other top-level fields;
applying zero pairs leaves a document that already has a scenario collection
unchanged, and on a document without one its only effect is initializing the
collection to empty. -/
theorem c7_amended_frame (ps : List UrlPair) (cfg : BackstopConfig) (scen : List Scenario) :
    (updateBackstopConfig ps cfg).rest = cfg.rest
    ∧ (cfg.scenarios = some scen → updateBackstopConfig [] cfg = cfg)
    ∧ (cfg.scenarios = none →
        updateBackstopConfig [] cfg = { scenarios := some [], rest := cfg.rest }) := by
  refine ⟨?_, ?_, ?_⟩
  · rw [updateBackstopConfig_eq]
  · cases cfg with
    | mk sc r =>
      intro h
      have h2 : sc = some scen := h
      subst h2
      rw [updateBackstopConfig_eq]
      simp [buildScenarios]
  · cases cfg with
    | mk sc r =>
      intro h
      have h2 : sc = none := h
      subst h2
      rw [updateBackstopConfig_eq]
      simp [buildScenarios]

/-- Witness for C7 at the two sample documents. -/
theorem c7_amended_frame_witness :
    cfgEx.scenarios = some [scenEx]
    ∧ (updateBackstopConfig [pairEx] cfgEx).rest = cfgEx.rest
    ∧ updateBackstopConfig [] cfgEx = cfgEx
    ∧ cfgNoScenarios.scenarios = none
    ∧ updateBackstopConfig [] cfgNoScenarios =
        { scenarios := some [], rest := cfgNoScenarios.rest } :=
  ⟨rfl, (c7_amended_frame [pairEx] cfgEx [scenEx]).1,
    (c7_amended_frame [] cfgEx [scenEx]).2.1 rfl,
    rfl, (c7_amended_frame [] cfgNoScenarios []).2.2 rfl⟩

/-- C10: every scenario record appended by the apply operation carries the
same fixed `hideSelectors`, `removeSelectors` and `misMatchThreshold`
defaults. -/
theorem c10_fixed_defaults (ps : List UrlPair) (cfg : BackstopConfig) (s : Scenario)
    (h : s ∈ ((updateBackstopConfig ps cfg).scenarios.getD []).drop
        (cfg.scenarios.getD []).length) :
    s.hideSelectors =
        [".cookie-banner", ".loading-spinner", "[data-testid=\"timestamp\"]", ".logo-garden"]
    ∧ s.removeSelectors = [".advertisement", ".chat-widget"]
    ∧ s.misMatchThreshold = 0.1 := by
  rw [updateBackstopConfig_eq] at h
  simp only [Option.getD_some, List.drop_left] at h
  exact buildScenarios_mem_fields 0 ps h

/-- Witness for C10 at a concrete appended scenario. -/
theorem c10_fixed_defaults_witness :
    (mkScenario pairEx 0) ∈ ((updateBackstopConfig [pairEx] cfgEx).scenarios.getD []).drop
        (cfgEx.scenarios.getD []).length
    ∧ (mkScenario pairEx 0).misMatchThreshold = 0.1 := by
  have hmem : (mkScenario pairEx 0) ∈
      ((updateBackstopConfig [pairEx] cfgEx).scenarios.getD []).drop
        (cfgEx.scenarios.getD []).length := by
    rw [updateBackstopConfig_eq]
    simp only [Option.getD_some, List.drop_left]
    simp [buildScenarios]
  exact ⟨hmem, (c10_fixed_defaults [pairEx] cfgEx (mkScenario pairEx 0) hmem).2.2⟩

/-! Claims C5, C6 about the scan edge cases and marker tolerance. -/

/-- C6 counterexample: the keyword is not recognized in every letter case — a
fully uppercase `BEFORE:`/`AFTER:` line is not treated as a marker line and
yields no pair. -/
theorem c6_counterexample_uppercase :
    matchBefore ("BEFORE: https://a.example/x") = none
    ∧ matchAfter ("AFTER: https://b.example/y") = none
    ∧ extractPairs ("BEFORE: https://a.example/x\nAFTER: https://b.example/y") = [] := by
  decide

/-- C6 amended: a line of optional bullets/whitespace, the keyword with its
first letter in either case (`Before`/`before`, `After`/`after`) and the
remaining letters lowercase, a colon, optional whitespace and a non-empty
remainder is treated as a marker line capturing the trimmed remainder. -/
theorem c6_amended_first_letter_case (bs sp r : List Char) (b a : Char)
    (hbs : ∀ x ∈ bs, isBullet x = true)
    (hsp : ∀ x ∈ sp, jsSpace x = true)
    (hb : b = 'B' ∨ b = 'b')
    (ha : a = 'A' ∨ a = 'a')
    (hr1 : headOk r = true) (hr2 : headOk r.reverse = true)
    (hr3 : r.all dotMatches = true) :
    matchBefore (String.mk (bs ++ b :: (("efore:".toList) ++ (sp ++ r)))) = some (String.mk r)
    ∧ matchAfter (String.mk (bs ++ a :: (("fter:".toList) ++ (sp ++ r)))) = some (String.mk r) := by
  constructor
  · unfold matchBefore
    exact matchKeyword_pos 'B' 'b' b _ bs sp r hbs
      (by rcases hb with h | h <;> subst h <;> decide)
      (by rcases hb with h | h <;> subst h <;> decide) hsp hr1 hr2 hr3
  · unfold matchAfter
    exact matchKeyword_pos 'A' 'a' a _ bs sp r hbs
      (by rcases ha with h | h <;> subst h <;> decide)
      (by rcases ha with h | h <;> subst h <;> decide) hsp hr1 hr2 hr3

/-- Witness for C6 amended: a bulleted lowercase `before` line and an
uppercase-initial `After` line. -/
theorem c6_amended_first_letter_case_witness :
    matchBefore (String.mk (['*', ' '] ++ 'b' :: (("efore:".toList) ++ ([' '] ++ ("x".toList)))))
      = some (String.mk ("x".toList))
    ∧ matchAfter (String.mk (['*', ' '] ++ 'A' :: (("fter:".toList) ++ ([' '] ++ ("x".toList)))))
      = some (String.mk ("x".toList)) :=
  c6_amended_first_letter_case ['*', ' '] [' '] ("x".toList) 'b' 'A' (by decide) (by decide)
    (Or.inr rfl) (Or.inl rfl) (by decide) (by decide) (by decide)

/-- C5 counterexample: the text "After: a\nBefore: b" ends with an unconsumed
`pendingBefore` (and an unconsumed `pendingAfter`); no pair is produced, yet
neither dangling-value warning is reported, because both slots are pending. -/
theorem c5_counterexample_silent_dangling :
    (scanBody ("After: a\nBefore: b")).currentBefore = some ("b")
    ∧ (scanBody ("After: a\nBefore: b")).currentAfter = some ("a")
    ∧ (scanBody ("After: a\nBefore: b")).pairs = []
    ∧ warnBefore (scanBody ("After: a\nBefore: b")) = false
    ∧ warnAfter (scanBody ("After: a\nBefore: b")) = false := by
  decide

/-- C5 amended: a trailing unmatched marker line never adds a pair to the
extraction output; the dangling-before warning is reported exactly when no
after value is also pending, and a trailing unmatched `After:` with no
pending before is always warned. -/
theorem c5_amended_dangling_dropped (ls : List String) (b a : String)
    (hb : cleanVal b = true) (ha : cleanVal a = true) :
    (scanLines (ls ++ ["Before: " ++ b])).pairs = (scanLines ls).pairs
    ∧ warnBefore (scanLines (ls ++ ["Before: " ++ b]))
        = !truthyS (scanLines ls).currentAfter
    ∧ (truthyS (scanLines ls).currentBefore = false →
        (scanLines (ls ++ ["After: " ++ a])).pairs = (scanLines ls).pairs
        ∧ warnAfter (scanLines (ls ++ ["After: " ++ a])) = true) := by
  have hsplit : ∀ l : String, scanLines (ls ++ [l]) = scanLine (scanLines ls) (jsTrim l) := by
    intro l
    unfold scanLines
    rw [List.map_append, List.foldl_append]
    simp [List.foldl]
  refine ⟨?_, ?_, ?_⟩
  · rw [hsplit, scanLine_markerB _ hb]
  · rw [hsplit, scanLine_markerB _ hb]
    unfold warnBefore
    have hbne : (b != "") = true := by simpa using clean_ne_empty hb
    simp [truthyS, hbne]
  · intro h
    constructor
    · rw [hsplit, scanLine_markerA_noemit _ ha h]
    · rw [hsplit, scanLine_markerA_noemit _ ha h]
      show (truthyS (some a) && !truthyS (scanLines ls).currentBefore) = true
      have hane : truthyS (some a) = true := by
        simpa [truthyS] using clean_ne_empty ha
      rw [hane, h]
      rfl

/-- Witness for C5 amended at the empty preceding text. -/
theorem c5_amended_dangling_dropped_witness :
    cleanVal ("https://b.example/y") = true
    ∧ truthyS (scanLines ([] : List String)).currentBefore = false
    ∧ (scanLines ([] ++ ["Before: " ++ "https://b.example/y"])).pairs =
        (scanLines ([] : List String)).pairs
    ∧ warnBefore (scanLines ([] ++ ["Before: " ++ "https://b.example/y"]))
        = !truthyS (scanLines ([] : List String)).currentAfter
    ∧ (scanLines ([] ++ ["After: " ++ "https://b.example/y"])).pairs =
        (scanLines ([] : List String)).pairs
    ∧ warnAfter (scanLines ([] ++ ["After: " ++ "https://b.example/y"])) = true := by
  have h := c5_amended_dangling_dropped [] ("https://b.example/y") ("https://b.example/y")
    (by decide) (by decide)
  exact ⟨by decide, by decide, h.1, h.2.1, (h.2.2 (by decide)).1, (h.2.2 (by decide)).2⟩

/-! Claim C8 about the exit codes of `main`. -/

lemma mainExitCode_some (valid : String → Bool) (body : String) (file : ConfigFile)
    (writeOk : Bool) :
    mainExitCode valid (some body) file writeOk =
      if body = "" then 0
      else if parsePRBody valid body = [] then 0
      else
        match file with
        | ConfigFile.missing => 1
        | ConfigFile.readError => 1
        | ConfigFile.parseError => 1
        | ConfigFile.content _ => if writeOk then 0 else 1 := rfl

/-- C8: the pipeline exits 0 with no body or an empty body, exits 0 when no
validated pair is found, and — once pairs were found — exits 1 on a missing,
unreadable or unparsable configuration document or a failed write, and 0 on a
successful update. -/
theorem c8_exit_codes (valid : String → Bool) (body : String) (file : ConfigFile)
    (writeOk : Bool) (cfg : BackstopConfig) :
    mainExitCode valid none file writeOk = 0
    ∧ mainExitCode valid (some ("")) file writeOk = 0
    ∧ (parsePRBody valid body = [] → mainExitCode valid (some body) file writeOk = 0)
    ∧ (body ≠ "" → parsePRBody valid body ≠ [] →
        mainExitCode valid (some body) ConfigFile.missing writeOk = 1
        ∧ mainExitCode valid (some body) ConfigFile.readError writeOk = 1
        ∧ mainExitCode valid (some body) ConfigFile.parseError writeOk = 1
        ∧ mainExitCode valid (some body) (ConfigFile.content cfg) false = 1
        ∧ mainExitCode valid (some body) (ConfigFile.content cfg) true = 0) := by
  refine ⟨rfl, rfl, ?_, ?_⟩
  · intro h
    rw [mainExitCode_some]
    by_cases hb : body = ""
    · rw [if_pos hb]
    · rw [if_neg hb, if_pos h]
  · intro hb h
    refine ⟨?_, ?_, ?_, ?_, ?_⟩ <;> rw [mainExitCode_some, if_neg hb, if_neg h] <;> rfl

/-- Witness for C8 at a body with one pair under an all-valid oracle. -/
theorem c8_exit_codes_witness :
    ("Before: u\nAfter: v" : String) ≠ ""
    ∧ parsePRBody (fun _ => true) ("Before: u\nAfter: v") ≠ []
    ∧ mainExitCode (fun _ => true) (some ("Before: u\nAfter: v")) ConfigFile.missing true = 1
    ∧ mainExitCode (fun _ => true) (some ("Before: u\nAfter: v"))
        (ConfigFile.content cfgEx) true = 0
    ∧ mainExitCode (fun _ => true) none ConfigFile.missing true = 0 := by
  have h := c8_exit_codes (fun _ => true) ("Before: u\nAfter: v") ConfigFile.missing true cfgEx
  exact ⟨by decide, by decide, (h.2.2.2 (by decide) (by decide)).1,
    (h.2.2.2 (by decide) (by decide)).2.2.2.2, h.1⟩
